import Mathlib

set_option maxRecDepth 8000

/-!
Shallow embedding of the cwalk parallel directory-walker core (cwalk.go).

The Go source is embedded as executable Lean definitions:
- walkBranch (parent pointer + basename) becomes the inductive WalkBranch;
  a nil parent is the root constructor.
- the per-worker queue (a Go slice with append at the end and pop from the
  end) becomes a List with queuePush and queuePop.
- stealWork's scan over the worker array becomes findVictim / stealWork
  over a list of queues indexed by worker id.
- the filesystem visible to os.Lstat / os.ReadDir is modelled by the
  inductive FTree, with error-injecting constructors for paths whose
  lstat or readdir fails.
- processBranch and the startWorker loop become processBranch / walkLoop,
  which record the callback invocations as a trace of WalkEvent values and
  logged errors as a list of relative paths.  The Callbacks struct with
  optional (nil-able) function fields is modelled by a CallbackSet of
  four presence flags, since the code only branches on nil-ness.
-/

namespace Cwalk

/-- Embedding of the walkBranch struct: parent pointer plus basename.
The root constructor stands for a branch with nil parent (the zero value
created by Run). -/
inductive WalkBranch where
  | root : WalkBranch
  | child (parent : WalkBranch) (basename : String) : WalkBranch
deriving DecidableEq, Inhabited

/-- Embedding of the walkBranch.parent field: none for the root. -/
def WalkBranch.parent : WalkBranch → Option WalkBranch
  | .root => none
  | .child p _ => some p

/-- Embedding of walkBranch.isRoot: cb.parent == nil. -/
def WalkBranch.isRoot (cb : WalkBranch) : Bool :=
  cb.parent.isNone

/-- Embedding of strings.Join with a separator, as used by relPath. -/
def joinSep (sep : String) : List String → String
  | [] => ""
  | [x] => x
  | x :: xs => x ++ sep ++ joinSep sep xs

/-- Embedding of walkBranch.relPathElems: the root contributes no
component, a child appends its basename to its parent's components. -/
def WalkBranch.relPathElems : WalkBranch → List String
  | .root => []
  | .child p s => p.relPathElems ++ [s]

/-- Embedding of walkBranch.relPath: strings.Join(relPathElems, slash). -/
def WalkBranch.relPath (cb : WalkBranch) : String :=
  joinSep "/" cb.relPathElems

/-- Embedding of walkWorker.queuePush: append the item at the end of the
worker's queue slice. -/
def queuePush {α : Type} (q : List α) (item : α) : List α :=
  q ++ [item]

/-- Embedding of walkWorker.queuePop: if the queue is non-empty remove and
return its last element, otherwise return nil and leave the queue alone. -/
def queuePop {α : Type} (q : List α) : Option α × List α :=
  if 0 < q.length then (q.getLast?, q.dropLast) else (none, q)

/-- Push a list of items one by one, in order, as the per-entry loop of
processBranch does with discovered child branches. -/
def queuePushAll (q : List WalkBranch) (items : List WalkBranch) : List WalkBranch :=
  items.foldl queuePush q

/-- Embedding of the victim scan inside stealWork: walk the worker array
from index k upward, skip the thief itself, and for the first worker whose
queue length is strictly greater than one pop its last item.  Returns the
victim's index, the stolen item and the victim's remaining queue. -/
def findVictim (thief : Nat) : Nat → List (List WalkBranch) → Option (Nat × WalkBranch × List WalkBranch)
  | _, [] => none
  | i, q :: rest =>
    if i = thief then findVictim thief (i + 1) rest
    else if 1 < q.length then
      match queuePop q with
      | (some item, qRest) => some (i, item, qRest)
      | (none, _) => findVictim thief (i + 1) rest
    else findVictim thief (i + 1) rest

/-- Embedding of Walker.stealWork: scan the worker array in index order and
transfer the first stealable item onto the thief's own queue, reporting
whether anything was stolen.  The state is the list of all worker queues,
indexed by worker id. -/
def stealWork (ws : List (List WalkBranch)) (thief : Nat) : Bool × List (List WalkBranch) :=
  match findVictim thief 0 ws with
  | some (j, item, qRest) =>
      (true, (ws.set j qRest).set thief (queuePush (ws.getD thief []) item))
  | none => (false, ws)

/-- Embedding of the startWorker scheduling loop for worker me, with the
branch-expansion step abstracted as a function from a branch to the list of
child branches it pushes (processBranch's effect on the owner's queue).
The loop pops local work, processes it, and when the local queue is empty
either steals or exits; fuel bounds the number of iterations.  Returns the
final queues and the branches processed by this worker, in order. -/
def workerLoop (expand : WalkBranch → List WalkBranch) (me : Nat) :
    Nat → List (List WalkBranch) → List WalkBranch → List (List WalkBranch) × List WalkBranch
  | 0, ws, done => (ws, done)
  | fuel + 1, ws, done =>
    match queuePop (ws.getD me []) with
    | (some b, qRest) =>
        workerLoop expand me fuel (ws.set me (queuePushAll qRest (expand b))) (done ++ [b])
    | (none, _) =>
        match stealWork ws me with
        | (true, ws2) => workerLoop expand me fuel ws2 done
        | (false, _) => (ws, done)

/-- Model of the filesystem subtree rooted at the walker's root path, as
seen through os.Lstat and os.ReadDir.  Error-injecting constructors stand
for paths on which one of the two syscalls fails: fileStatErr is a
non-directory entry whose lstat fails, dirStatErr a directory entry whose
lstat fails, dirReadErr a directory whose lstat succeeds but whose readdir
fails. -/
inductive FTree where
  | file (name : String) : FTree
  | fileStatErr (name : String) : FTree
  | dir (name : String) (entries : List FTree) : FTree
  | dirStatErr (name : String) : FTree
  | dirReadErr (name : String) : FTree

/-- Basename of a node, as returned by DirEntry.Name(). -/
def nodeName : FTree → String
  | .file n => n
  | .fileStatErr n => n
  | .dir n _ => n
  | .dirStatErr n => n
  | .dirReadErr n => n

/-- Whether the node is listed as a directory, as returned by
DirEntry.IsDir(). -/
def nodeIsDir : FTree → Bool
  | .file _ => false
  | .fileStatErr _ => false
  | .dir _ _ => true
  | .dirStatErr _ => true
  | .dirReadErr _ => true

/-- Result of os.Lstat on a node: some isDir on success, none on error. -/
def lstatNode : FTree → Option Bool
  | .file _ => some false
  | .fileStatErr _ => none
  | .dir _ _ => some true
  | .dirStatErr _ => none
  | .dirReadErr _ => some true

/-- Result of os.ReadDir on a node: the listing for a readable directory,
an error otherwise. -/
def readDirNode : FTree → Option (List FTree)
  | .dir _ es => some es
  | _ => none

/-- Resolve a relative path (list of components) against the root tree,
descending through readable directories. -/
def findNode : List String → FTree → Option FTree
  | [], t => some t
  | c :: cs, t =>
    match t with
    | FTree.dir _ es =>
      match es.find? (fun e => nodeName e == c) with
      | some e => findNode cs e
      | none => none
    | _ => none

/-- os.Lstat by relative path against the root tree. -/
def lstatPath (root : FTree) (p : List String) : Option Bool :=
  match findNode p root with
  | some n => lstatNode n
  | none => none

/-- os.ReadDir by relative path against the root tree. -/
def readDirPath (root : FTree) (p : List String) : Option (List FTree) :=
  match findNode p root with
  | some n => readDirNode n
  | none => none

/-- Which optional callbacks of the Callbacks struct are non-nil.  The
engine only ever tests the fields against nil before invoking them, so a
presence flag per field models the struct faithfully. -/
structure CallbackSet where
  onLstat : Bool
  onReadDir : Bool
  onFileOrSymlink : Bool
  onDirectory : Bool
deriving DecidableEq

/-- One recorded callback invocation.  lstat carries the isDir argument,
the relative path and whether the error argument was non-nil; readDir
carries the entry names of the listing (empty on error) and the error
flag. -/
inductive WalkEvent where
  | lstat (isDir : Bool) (relPath : String) (errored : Bool) : WalkEvent
  | readDir (relPath : String) (names : List String) (errored : Bool) : WalkEvent
  | directory (relPath : String) : WalkEvent
  | fileOrSymlink (relPath : String) : WalkEvent
deriving DecidableEq

/-- Embedding of the childRelPath computation inside processBranch's entry
loop: root-level entries get the bare basename, deeper ones get
relPath ++ slash ++ basename. -/
def childRelPath (branch : Cwalk.WalkBranch) (relPath entryName : String) : String :=
  if branch.isRoot then entryName else relPath ++ "/" ++ entryName

/-- Embedding of the per-entry loop of processBranch (cwalk.go lines
305-355): skip directory entries named .snapshot; for a directory entry
invoke OnDirectory (when set) and queue a child branch; for any other
entry invoke OnFileOrSymlink and, nested inside that callback's presence
check as in the source, lstat the entry and invoke OnLstat (when set).
Returns the emitted events and the child branches in listing order. -/
def processEntries (cbs : CallbackSet) (root : FTree) (branch : WalkBranch) (relPath : String) :
    List FTree → List WalkEvent × List WalkBranch
  | [] => ([], [])
  | e :: rest =>
    let entryName := nodeName e
    if nodeIsDir e && entryName == ".snapshot" then
      processEntries cbs root branch relPath rest
    else if nodeIsDir e then
      let evs := if cbs.onDirectory then
          [WalkEvent.directory (childRelPath branch relPath entryName)] else []
      let r := processEntries cbs root branch relPath rest
      (evs ++ r.1, WalkBranch.child branch entryName :: r.2)
    else
      let evs :=
        if cbs.onFileOrSymlink then
          let crp := childRelPath branch relPath entryName
          WalkEvent.fileOrSymlink crp ::
            (if cbs.onLstat then
              [WalkEvent.lstat false crp (lstatPath root (branch.relPathElems ++ [entryName])).isNone]
             else [])
        else []
      let r := processEntries cbs root branch relPath rest
      (evs ++ r.1, r.2)

/-- Outcome of processing one branch: emitted callback events, child
branches pushed onto the owner's queue, and whether the branch's
processing returned an error. -/
structure BranchResult where
  events : List WalkEvent
  children : List WalkBranch
  errored : Bool
deriving DecidableEq

/-- Embedding of walkWorker.processBranch: lstat the branch path itself
and report it through OnLstat with isDir true (aborting on error), read
the directory and report through OnReadDir (aborting on error), then run
the per-entry loop. -/
def processBranch (cbs : CallbackSet) (root : FTree) (branch : WalkBranch) : BranchResult :=
  let relPath := branch.relPath
  match lstatPath root branch.relPathElems with
  | none =>
      { events := if cbs.onLstat then [WalkEvent.lstat true relPath true] else []
        children := []
        errored := true }
  | some _ =>
      let ev1 := if cbs.onLstat then [WalkEvent.lstat true relPath false] else []
      match readDirPath root branch.relPathElems with
      | none =>
          { events := ev1 ++ (if cbs.onReadDir then [WalkEvent.readDir relPath [] true] else [])
            children := []
            errored := true }
      | some entries =>
          let ev2 := if cbs.onReadDir then
              [WalkEvent.readDir relPath (entries.map nodeName) false] else []
          let r := processEntries cbs root branch relPath entries
          { events := ev1 ++ ev2 ++ r.1
            children := r.2
            errored := false }

/-- Embedding of the startWorker loop specialised to the deterministic
single-worker execution (worker 0 alone; stealWork over a one-worker array
always fails, see stealWork_single below): pop a branch, process it,
log an error line with the branch's relative path on failure, push the
discovered children, and exit when the queue is empty.  Accumulates the
callback trace and the log lines. -/
def walkLoop (cbs : CallbackSet) (root : FTree) :
    Nat → List WalkBranch → List WalkEvent → List String → List WalkEvent × List String
  | 0, _, evs, logs => (evs, logs)
  | fuel + 1, q, evs, logs =>
    match queuePop q with
    | (some b, qRest) =>
        let r := processBranch cbs root b
        walkLoop cbs root fuel (queuePushAll qRest r.children) (evs ++ r.events)
          (if r.errored then logs ++ [b.relPath] else logs)
    | (none, _) => (evs, logs)

/-- Embedding of the Walker struct: the filesystem tree at rootPath, the
callback set, and the cancellation token (monitorCtx / cancel), recorded
as a fired-or-not flag. -/
structure Walker where
  root : FTree
  callbacks : CallbackSet
  cancelled : Bool

/-- Embedding of Walker.Stop: fire the cancellation token. -/
def Stop (w : Walker) : Walker :=
  { w with cancelled := true }

/-- Result of Walker.Run: the callback trace, the logged error lines, and
Run's own return value. -/
structure RunResult where
  events : List WalkEvent
  logs : List String
  err : Option String
deriving DecidableEq

/-- Embedding of Walker.Run: seed the root branch into worker 0's queue,
run the workers to quiescence, and return nil. -/
def Run (w : Walker) (fuel : Nat) : RunResult :=
  let p := walkLoop w.callbacks w.root fuel (queuePush [] WalkBranch.root) [] []
  { events := p.1, logs := p.2, err := none }

/-- Relative paths of the OnLstat invocations in a trace, in order. -/
def lstatRelPaths (evs : List WalkEvent) : List String :=
  evs.filterMap fun e =>
    match e with
    | .lstat _ p _ => some p
    | _ => none

/-- Relative paths of the OnFileOrSymlink invocations in a trace. -/
def fileRelPaths (evs : List WalkEvent) : List String :=
  evs.filterMap fun e =>
    match e with
    | .fileOrSymlink p => some p
    | _ => none

/-- Relative paths of the OnDirectory invocations in a trace. -/
def dirRelPaths (evs : List WalkEvent) : List String :=
  evs.filterMap fun e =>
    match e with
    | .directory p => some p
    | _ => none

/-- The four-file example tree of the specification: root/a.txt,
root/dir1/b.txt, root/dir1/dir2/c.txt, root/dir3/d.txt. -/
def exampleTree : FTree :=
  FTree.dir "" [FTree.file "a.txt",
    FTree.dir "dir1" [FTree.file "b.txt", FTree.dir "dir2" [FTree.file "c.txt"]],
    FTree.dir "dir3" [FTree.file "d.txt"]]

/-- All four callbacks configured. -/
def allCbs : CallbackSet :=
  { onLstat := true, onReadDir := true, onFileOrSymlink := true, onDirectory := true }

/-- The root-only tree used to exhibit the per-entry lstat gating: one
regular file under the root. -/
def oneFileTree : FTree :=
  FTree.dir "" [FTree.file "a.txt"]

/-- Only the OnLstat callback configured. -/
def lstatOnlyCbs : CallbackSet :=
  { onLstat := true, onReadDir := false, onFileOrSymlink := false, onDirectory := false }

/-- OnLstat and OnFileOrSymlink configured, the other callbacks absent. -/
def lstatAndFileCbs : CallbackSet :=
  { onLstat := true, onReadDir := false, onFileOrSymlink := true, onDirectory := false }

/-- A root directory containing one ignored .snapshot subdirectory (with a
file inside) and one regular file. -/
def snapTree : FTree :=
  FTree.dir "" [FTree.dir ".snapshot" [FTree.file "inner.txt"], FTree.file "x.txt"]

/-- A root directory with one child whose lstat fails and one whose
readdir fails. -/
def badTree : FTree :=
  FTree.dir "" [FTree.dirStatErr "bad", FTree.dirReadErr "ugh"]

section Lemmas

/-- Popping immediately after a push returns the pushed item and restores
the queue. -/
lemma queuePop_push {α : Type} (q : List α) (b : α) :
    queuePop (queuePush q b) = (some b, q) := by
  unfold queuePop queuePush
  rw [if_pos (by simp)]
  rw [List.getLast?_concat, List.dropLast_concat]

/-- Popping the empty queue reports not-found and leaves it empty. -/
lemma queuePop_nil {α : Type} : queuePop ([] : List α) = (none, []) := rfl

/-- With a single worker the steal scan finds nobody (the only candidate
is the thief itself), so stealWork fails; this is why the single-worker
walkLoop may exit as soon as its queue is empty. -/
lemma stealWork_single (q : List WalkBranch) : stealWork [q] 0 = (false, [q]) := rfl

/-- Appending a final component to a joined path adds one separator,
except when the prefix is empty. -/
lemma joinSep_concat (sep b : String) :
    ∀ (xs : List String),
      joinSep sep (xs ++ [b]) = if xs = [] then b else joinSep sep xs ++ sep ++ b := by
  intro xs
  induction xs with
  | nil => rfl
  | cons x xs ih =>
    cases xs with
    | nil => rfl
    | cons y ys =>
      have h1 : joinSep sep (x :: ((y :: ys) ++ [b]))
          = x ++ sep ++ joinSep sep ((y :: ys) ++ [b]) := rfl
      rw [List.cons_append, h1, ih]
      simp only [List.cons_ne_nil, if_false, reduceCtorEq, joinSep]
      simp [String.append_assoc]

/-- A branch has empty path components exactly when it is the root. -/
lemma relPathElems_eq_nil_iff (b : WalkBranch) :
    b.relPathElems = [] ↔ b.isRoot = true := by
  cases b with
  | root => simp [WalkBranch.relPathElems, WalkBranch.isRoot, WalkBranch.parent]
  | child p s => simp [WalkBranch.relPathElems, WalkBranch.isRoot, WalkBranch.parent]

/-- A branch that processBranch failed on contributes no child branches. -/
lemma processBranch_errored_children (cbs : CallbackSet) (root : FTree) (b : WalkBranch) :
    (processBranch cbs root b).errored = true → (processBranch cbs root b).children = [] := by
  unfold processBranch
  cases h1 : lstatPath root b.relPathElems with
  | none => intro _; rfl
  | some d =>
    cases h2 : readDirPath root b.relPathElems with
    | none => intro _; rfl
    | some es => intro hcontra; simp at hcontra

/-- If every worker from index k on (other than the thief) holds at most
one item, the victim scan comes up empty. -/
lemma findVictim_none_of_small (thief : Nat) :
    ∀ (l : List (List WalkBranch)) (k : Nat),
      (∀ i, i < l.length → k + i ≠ thief → (l.getD i []).length ≤ 1) →
      findVictim thief k l = none := by
  intro l
  induction l with
  | nil => intro k _; rfl
  | cons q rest ih =>
    intro k h
    have hrest : ∀ i, i < rest.length → (k + 1) + i ≠ thief → (rest.getD i []).length ≤ 1 := by
      intro i hi hne
      have := h (i + 1) (by simpa using Nat.succ_lt_succ hi) (by omega)
      simpa using this
    by_cases hk : k = thief
    · simp only [findVictim, if_pos hk]
      exact ih (k + 1) hrest
    · have hq : q.length ≤ 1 := by
        have := h 0 (by simp) (by simpa using hk)
        simpa using this
      have hq2 : ¬ 1 < q.length := by omega
      simp only [findVictim, if_neg hk, if_neg hq2]
      exact ih (k + 1) hrest

/-- If index j holds the first queue (other than the thief, counting
absolute indices from k) with more than one item, the victim scan stops
there and pops that queue's last item. -/
lemma findVictim_found (thief : Nat) :
    ∀ (l : List (List WalkBranch)) (k j : Nat) (item : WalkBranch),
      j < l.length → k + j ≠ thief → 1 < (l.getD j []).length →
      (l.getD j []).getLast? = some item →
      (∀ i, i < j → k + i ≠ thief → (l.getD i []).length ≤ 1) →
      findVictim thief k l = some (k + j, item, (l.getD j []).dropLast) := by
  intro l
  induction l with
  | nil =>
    intro k j item hj
    exact absurd hj (by simp)
  | cons q rest ih =>
    intro k j item hj hne hlen hlast hmin
    cases j with
    | zero =>
      have hkt : ¬ k = thief := by simpa using hne
      simp only [List.getD_cons_zero] at hlen hlast
      have hpop : queuePop q = (some item, q.dropLast) := by
        unfold queuePop
        rw [if_pos (by omega), hlast]
      simp only [findVictim, if_neg hkt, if_pos hlen, hpop]
      simp
    | succ j2 =>
      have hj2 : j2 < rest.length := by simpa using Nat.lt_of_succ_lt_succ hj
      have hne2 : (k + 1) + j2 ≠ thief := by omega
      have hlen2 : 1 < (rest.getD j2 []).length := by simpa using hlen
      have hlast2 : (rest.getD j2 []).getLast? = some item := by simpa using hlast
      have hidx : k + (j2 + 1) = (k + 1) + j2 := by omega
      by_cases hk : k = thief
      · have hrec := ih (k + 1) j2 item hj2 hne2 hlen2 hlast2 (by
          intro i hi hnei
          have := hmin (i + 1) (Nat.succ_lt_succ hi) (by omega)
          simpa using this)
        simp only [findVictim, if_pos hk, hrec, List.getD_cons_succ, hidx]
      · have hq : q.length ≤ 1 := by
          have := hmin 0 (Nat.succ_pos _) (by simpa using hk)
          simpa using this
        have hq2 : ¬ 1 < q.length := by omega
        have hrec := ih (k + 1) j2 item hj2 hne2 hlen2 hlast2 (by
          intro i hi hnei
          have := hmin (i + 1) (Nat.succ_lt_succ hi) (by omega)
          simpa using this)
        simp only [findVictim, if_neg hk, if_neg hq2, hrec, List.getD_cons_succ, hidx]

end Lemmas

/-- C1: for a worker with an empty local queue, stealWork scans every
other worker in index order; for the first peer j with queue length
strictly greater than one it removes that peer's most-recently-pushed
branch (the last of its queue), pushes it onto the thief's own queue and
reports success; if no peer has more than one item it reports failure and
the worker loop exits immediately, performing no further work, for every
fuel bound and expansion function. -/
theorem C1_steal_first_peer_or_terminate :
    ∀ (ws : List (List WalkBranch)) (me : Nat),
      ws.getD me [] = [] →
      ((∀ (j : Nat) (item : WalkBranch),
          j < ws.length → j ≠ me → 1 < (ws.getD j []).length →
          (ws.getD j []).getLast? = some item →
          (∀ i, i < j → i ≠ me → (ws.getD i []).length ≤ 1) →
          stealWork ws me =
            (true, (ws.set j (ws.getD j []).dropLast).set me (queuePush (ws.getD me []) item)))
       ∧ ((∀ i, i < ws.length → i ≠ me → (ws.getD i []).length ≤ 1) →
          stealWork ws me = (false, ws)
          ∧ ∀ (expand : WalkBranch → List WalkBranch) (fuel : Nat) (done : List WalkBranch),
              workerLoop expand me fuel ws done = (ws, done))) := by
  intro ws me hEmpty
  constructor
  · intro j item hj hjm hlen hlast hmin
    have hfind := findVictim_found me ws 0 j item hj (by simpa using hjm) hlen hlast (by
      intro i hi hne
      exact hmin i hi (by simpa using hne))
    unfold stealWork
    rw [hfind]
    simp only [Nat.zero_add]
  · intro hAll
    have hfind := findVictim_none_of_small me ws 0 (by
      intro i hi hne
      exact hAll i hi (by simpa using hne))
    have hsteal : stealWork ws me = (false, ws) := by
      unfold stealWork
      rw [hfind]
    refine ⟨hsteal, ?_⟩
    intro expand fuel done
    cases fuel with
    | zero => rfl
    | succ f =>
      simp only [workerLoop, hEmpty, queuePop_nil, hsteal]

/-- Concrete instance of the steal characterization: with two workers
where worker 1 holds two branches, idle worker 0 steals worker 1's
most-recently-pushed branch; with worker 1 holding a single branch, the
steal fails and worker 0's loop exits at once. -/
theorem C1_witness :
    stealWork [[], [WalkBranch.root, WalkBranch.child WalkBranch.root "a"]] 0 =
      (true,
        (([[], [WalkBranch.root, WalkBranch.child WalkBranch.root "a"]].set 1
            (([[], [WalkBranch.root, WalkBranch.child WalkBranch.root "a"]].getD 1 []).dropLast)).set 0
          (queuePush ([[], [WalkBranch.root, WalkBranch.child WalkBranch.root "a"]].getD 0 [])
            (WalkBranch.child WalkBranch.root "a"))))
    ∧ stealWork [[], [WalkBranch.root]] 0 = (false, [[], [WalkBranch.root]])
    ∧ workerLoop (fun _ => []) 0 5 [[], [WalkBranch.root]] [] = ([[], [WalkBranch.root]], []) := by
  have h1 := (C1_steal_first_peer_or_terminate
      [[], [WalkBranch.root, WalkBranch.child WalkBranch.root "a"]] 0 (by decide)).1
      1 (WalkBranch.child WalkBranch.root "a") (by decide) (by decide) (by decide) (by decide)
      (fun i hi hne => absurd (by omega : i = 0) hne)
  have h2 := (C1_steal_first_peer_or_terminate [[], [WalkBranch.root]] 0 (by decide)).2
      (by
        intro i hi hne
        have : i = 1 := by
          simp only [List.length_cons, List.length_nil] at hi
          omega
        subst this
        decide)
  exact ⟨h1, h2.1, h2.2 (fun _ => []) 5 []⟩

/-- C5: each worker queue obeys strict LIFO discipline: queuePush appends
a branch, queuePop after queuePush b on q yields b and restores q, and
queuePop on an empty queue returns the not-found signal leaving the queue
unchanged. -/
theorem C5_queue_lifo :
    ∀ (q : List WalkBranch) (b : WalkBranch),
      queuePush q b = q ++ [b]
      ∧ queuePop (queuePush q b) = (some b, q)
      ∧ queuePop ([] : List WalkBranch) = (none, ([] : List WalkBranch)) := by
  intro q b
  exact ⟨rfl, queuePop_push q b, rfl⟩

/-- C9: a branch is the root exactly when it has no parent, the root's
relative path is the empty string, and a non-root branch's relative path
is the slash-joined concatenation of its ancestors' basenames followed by
its own basename; this agrees with the inline childRelPath computation of
processBranch. -/
theorem C9_branch_paths :
    ∀ (b : WalkBranch),
      (b.isRoot = true ↔ b.parent = none)
      ∧ WalkBranch.root.relPath = ""
      ∧ (∀ (p : WalkBranch) (s : String),
          (WalkBranch.child p s).relPathElems = p.relPathElems ++ [s]
          ∧ (WalkBranch.child p s).relPath = joinSep "/" (p.relPathElems ++ [s])
          ∧ (WalkBranch.child p s).relPath = childRelPath p p.relPath s) := by
  intro b
  refine ⟨?_, rfl, ?_⟩
  · cases b with
    | root => simp [WalkBranch.isRoot, WalkBranch.parent]
    | child p s => simp [WalkBranch.isRoot, WalkBranch.parent]
  · intro p s
    refine ⟨rfl, rfl, ?_⟩
    show joinSep "/" (p.relPathElems ++ [s]) = childRelPath p p.relPath s
    rw [joinSep_concat]
    unfold childRelPath
    by_cases hp : p.isRoot = true
    · rw [if_pos hp, if_pos ((relPathElems_eq_nil_iff p).mpr hp)]
    · have hne : ¬ p.relPathElems = [] := by
        intro hnil
        exact hp ((relPathElems_eq_nil_iff p).mp hnil)
      rw [if_neg hne, if_neg hp]
      rfl

/-- C7: Run's own return value never surfaces any per-branch or per-entry
failure: it is nil for every walker and fuel; in particular on a root
whose stat fails, the failure is logged but Run still returns nil. -/
theorem C7_run_returns_nil :
    (∀ (w : Walker) (fuel : Nat), (Run w fuel).err = none)
    ∧ (Run { root := FTree.dirStatErr "r", callbacks := allCbs, cancelled := false } 10).logs = [""]
    ∧ (Run { root := FTree.dirStatErr "r", callbacks := allCbs, cancelled := false } 10).err = none := by
  refine ⟨fun w fuel => rfl, by decide, rfl⟩

/-- C8: Stop marks the cancellation token as fired for external
observation, but the traversal never consults it: a run after Stop emits
exactly the callbacks and logs of a run without Stop, for every walker,
tree and fuel. -/
theorem C8_stop_noninterference :
    ∀ (w : Walker) (fuel : Nat),
      (Stop w).cancelled = true ∧ Run (Stop w) fuel = Run w fuel := by
  intro w fuel
  exact ⟨rfl, rfl⟩

/-- C6: a stat failure on a branch's own path aborts that branch after
the single error-reporting OnLstat event, with no OnReadDir event, no
per-entry callbacks and no children queued; a listing failure aborts the
branch's children after the error-reporting OnReadDir event; and the
worker loop logs the failed branch and continues with the remaining
queue, leaving sibling branches unaffected. -/
theorem C6_branch_error_isolation :
    ∀ (cbs : CallbackSet) (root : FTree) (b : WalkBranch),
      (lstatPath root b.relPathElems = none →
        processBranch cbs root b =
          { events := if cbs.onLstat then [WalkEvent.lstat true b.relPath true] else []
            children := []
            errored := true })
      ∧ (∀ d, lstatPath root b.relPathElems = some d →
          (readDirPath root b.relPathElems).isNone = true →
          processBranch cbs root b =
            { events := (if cbs.onLstat then [WalkEvent.lstat true b.relPath false] else [])
                ++ (if cbs.onReadDir then [WalkEvent.readDir b.relPath [] true] else [])
              children := []
              errored := true })
      ∧ (∀ (fuel : Nat) (q : List WalkBranch) (evs : List WalkEvent) (logs : List String),
          (processBranch cbs root b).errored = true →
          walkLoop cbs root (fuel + 1) (queuePush q b) evs logs =
            walkLoop cbs root fuel q (evs ++ (processBranch cbs root b).events)
              (logs ++ [b.relPath])) := by
  intro cbs root b
  refine ⟨?_, ?_, ?_⟩
  · intro h
    simp only [processBranch, h]
  · intro d h1 h2
    have h2n : readDirPath root b.relPathElems = none := Option.isNone_iff_eq_none.mp h2
    simp only [processBranch, h1, h2n]
  · intro fuel q evs logs herr
    have hch := processBranch_errored_children cbs root b herr
    simp only [walkLoop, queuePop_push, hch, herr, queuePushAll, List.foldl_nil, if_true]

/-- Concrete instance of branch-error isolation on badTree: the branch
whose lstat fails aborts with only its error OnLstat event, the branch
whose readdir fails aborts after the error OnReadDir event, and the loop
logs the failed branch and continues with the sibling still queued. -/
theorem C6_witness :
    processBranch allCbs badTree (WalkBranch.child WalkBranch.root "bad") =
      { events := if allCbs.onLstat then
          [WalkEvent.lstat true (WalkBranch.child WalkBranch.root "bad").relPath true] else []
        children := []
        errored := true }
    ∧ processBranch allCbs badTree (WalkBranch.child WalkBranch.root "ugh") =
      { events := (if allCbs.onLstat then
            [WalkEvent.lstat true (WalkBranch.child WalkBranch.root "ugh").relPath false] else [])
          ++ (if allCbs.onReadDir then
            [WalkEvent.readDir (WalkBranch.child WalkBranch.root "ugh").relPath [] true] else [])
        children := []
        errored := true }
    ∧ walkLoop allCbs badTree (3 + 1)
        (queuePush [WalkBranch.root] (WalkBranch.child WalkBranch.root "bad")) [] [] =
      walkLoop allCbs badTree 3 [WalkBranch.root]
        ([] ++ (processBranch allCbs badTree (WalkBranch.child WalkBranch.root "bad")).events)
        ([] ++ [(WalkBranch.child WalkBranch.root "bad").relPath]) := by
  refine ⟨?_, ?_, ?_⟩
  · exact (C6_branch_error_isolation allCbs badTree (WalkBranch.child WalkBranch.root "bad")).1
      (by decide)
  · exact (C6_branch_error_isolation allCbs badTree (WalkBranch.child WalkBranch.root "ugh")).2.1
      true (by decide) (by decide)
  · exact (C6_branch_error_isolation allCbs badTree (WalkBranch.child WalkBranch.root "bad")).2.2
      3 [WalkBranch.root] [] [] (by decide)

/-- C10: the only ignore rule in the engine is the hardcoded basename
.snapshot restricted to directory entries: a directory-typed entry named
.snapshot (readable or not) contributes no callbacks and no child branch,
so its descendants are never visited; every other directory entry
contributes its OnDirectory event and a queued child; and every
non-directory entry — including one named .snapshot — contributes its
OnFileOrSymlink and per-entry OnLstat events like any other file. -/
theorem C10_hardcoded_snapshot_ignore :
    ∀ (cbs : CallbackSet) (root : FTree) (b : WalkBranch) (rp : String) (rest : List FTree),
      (∀ sub, processEntries cbs root b rp (FTree.dir ".snapshot" sub :: rest) =
          processEntries cbs root b rp rest)
      ∧ (processEntries cbs root b rp (FTree.dirStatErr ".snapshot" :: rest) =
          processEntries cbs root b rp rest)
      ∧ (processEntries cbs root b rp (FTree.dirReadErr ".snapshot" :: rest) =
          processEntries cbs root b rp rest)
      ∧ (∀ name sub, name ≠ ".snapshot" →
          processEntries cbs root b rp (FTree.dir name sub :: rest) =
            ((if cbs.onDirectory then [WalkEvent.directory (childRelPath b rp name)] else [])
                ++ (processEntries cbs root b rp rest).1,
             WalkBranch.child b name :: (processEntries cbs root b rp rest).2))
      ∧ (∀ name,
          processEntries cbs root b rp (FTree.file name :: rest) =
            ((if cbs.onFileOrSymlink then
                WalkEvent.fileOrSymlink (childRelPath b rp name) ::
                  (if cbs.onLstat then
                    [WalkEvent.lstat false (childRelPath b rp name)
                      (lstatPath root (b.relPathElems ++ [name])).isNone]
                   else [])
              else [])
                ++ (processEntries cbs root b rp rest).1,
             (processEntries cbs root b rp rest).2)) := by
  intro cbs root b rp rest
  refine ⟨?_, ?_, ?_, ?_, ?_⟩
  · intro sub
    simp [processEntries, nodeName, nodeIsDir]
  · simp [processEntries, nodeName, nodeIsDir]
  · simp [processEntries, nodeName, nodeIsDir]
  · intro name sub hname
    simp [processEntries, nodeName, nodeIsDir, hname]
  · intro name
    simp [processEntries, nodeName, nodeIsDir]

/-- Concrete instance of the hardcoded ignore rule at the root of
snapTree: the .snapshot directory entry contributes nothing, a directory
entry of another name is reported and queued, and a non-directory entry
named .snapshot is reported like any file. -/
theorem C10_witness :
    processEntries allCbs snapTree WalkBranch.root ""
        [FTree.dir ".snapshot" [FTree.file "inner.txt"]] =
      processEntries allCbs snapTree WalkBranch.root "" []
    ∧ processEntries allCbs snapTree WalkBranch.root "" [FTree.dir "d" []] =
      ((if allCbs.onDirectory then [WalkEvent.directory (childRelPath WalkBranch.root "" "d")] else [])
          ++ (processEntries allCbs snapTree WalkBranch.root "" []).1,
       WalkBranch.child WalkBranch.root "d" :: (processEntries allCbs snapTree WalkBranch.root "" []).2)
    ∧ processEntries allCbs snapTree WalkBranch.root "" [FTree.file ".snapshot"] =
      ((if allCbs.onFileOrSymlink then
          WalkEvent.fileOrSymlink (childRelPath WalkBranch.root "" ".snapshot") ::
            (if allCbs.onLstat then
              [WalkEvent.lstat false (childRelPath WalkBranch.root "" ".snapshot")
                (lstatPath snapTree (WalkBranch.root.relPathElems ++ [".snapshot"])).isNone]
             else [])
        else [])
          ++ (processEntries allCbs snapTree WalkBranch.root "" []).1,
       (processEntries allCbs snapTree WalkBranch.root "" []).2) := by
  refine ⟨?_, ?_, ?_⟩
  · exact (C10_hardcoded_snapshot_ignore allCbs snapTree WalkBranch.root "" []).1
      [FTree.file "inner.txt"]
  · exact (C10_hardcoded_snapshot_ignore allCbs snapTree WalkBranch.root "" []).2.2.2.1
      "d" [] (by decide)
  · exact (C10_hardcoded_snapshot_ignore allCbs snapTree WalkBranch.root "" []).2.2.2.2
      ".snapshot"

/-- C2 fails on the code: walking snapTree with every callback configured
produces a trace in which the .snapshot directory entry — listed by the
OnReadDir event, so encountered during expansion — receives no OnLstat
call at all (the hardcoded ignore decision runs first), and the x.txt
entry's OnLstat fires after its OnFileOrSymlink, not before. -/
theorem C2_counterexample :
    (Run { root := snapTree, callbacks := allCbs, cancelled := false } 10).events =
      [WalkEvent.lstat true "" false,
       WalkEvent.readDir "" [".snapshot", "x.txt"] false,
       WalkEvent.fileOrSymlink "x.txt",
       WalkEvent.lstat false "x.txt" false]
    ∧ ((Run { root := snapTree, callbacks := allCbs, cancelled := false } 10).events.filter
        (fun e =>
          match e with
          | WalkEvent.lstat _ p _ => p == ".snapshot"
          | _ => false)) = []
    ∧ WalkEvent.readDir "" [".snapshot", "x.txt"] false ∈
        (Run { root := snapTree, callbacks := allCbs, cancelled := false } 10).events := by
  refine ⟨by decide, by decide, by decide⟩

/-- C2 amended: the ignore decision precedes all per-entry callbacks — an
ignored .snapshot directory entry contributes no events, hence no OnLstat;
for a non-directory entry the per-entry OnLstat fires immediately after
OnFileOrSymlink and only when OnFileOrSymlink is configured (with it
absent, the entry contributes no events at all); a non-ignored directory
entry contributes no per-entry OnLstat — only its OnDirectory event and a
queued child branch — and its own OnLstat fires first when that branch is
subsequently processed. -/
theorem C2_amended_entry_order :
    ∀ (cbs : CallbackSet) (root : FTree) (b : WalkBranch) (rp name : String)
      (rest sub : List FTree),
      cbs.onFileOrSymlink = true → cbs.onLstat = true →
      ((processEntries cbs root b rp (FTree.file name :: rest)).1 =
          WalkEvent.fileOrSymlink (childRelPath b rp name) ::
            WalkEvent.lstat false (childRelPath b rp name)
              (lstatPath root (b.relPathElems ++ [name])).isNone ::
            (processEntries cbs root b rp rest).1)
      ∧ processEntries cbs root b rp (FTree.dir ".snapshot" sub :: rest) =
          processEntries cbs root b rp rest
      ∧ (∀ cbs2 : CallbackSet, cbs2.onFileOrSymlink = false →
          processEntries cbs2 root b rp (FTree.file name :: rest) =
            processEntries cbs2 root b rp rest)
      ∧ (name ≠ ".snapshot" →
          processEntries cbs root b rp (FTree.dir name sub :: rest) =
            ((if cbs.onDirectory then [WalkEvent.directory (childRelPath b rp name)] else [])
                ++ (processEntries cbs root b rp rest).1,
             WalkBranch.child b name :: (processEntries cbs root b rp rest).2))
      ∧ (∀ (b2 : WalkBranch) (d : Bool), lstatPath root b2.relPathElems = some d →
          (processBranch cbs root b2).events.head? =
            some (WalkEvent.lstat true b2.relPath false)) := by
  intro cbs root b rp name rest sub hf hl
  refine ⟨?_, ?_, ?_, ?_, ?_⟩
  · simp [processEntries, nodeName, nodeIsDir, hf, hl]
  · simp [processEntries, nodeName, nodeIsDir]
  · intro cbs2 hf2
    simp [processEntries, nodeName, nodeIsDir, hf2]
  · intro hname
    simp [processEntries, nodeName, nodeIsDir, hname]
  · intro b2 d h
    cases h2 : readDirPath root b2.relPathElems with
    | none => simp [processBranch, h, h2, hl]
    | some es => simp [processBranch, h, h2, hl]

/-- Concrete instance of the amended entry ordering at the root of
snapTree with all callbacks configured: per-entry ordering for x.txt,
the silent .snapshot skip, the gating with only OnLstat configured, a
non-ignored directory entry contributing only its OnDirectory event plus
a queued child, and that child branch's own OnLstat firing first when the
branch is processed. -/
theorem C2_amended_witness :
    (processEntries allCbs exampleTree WalkBranch.root "" [FTree.file "x.txt"]).1 =
      WalkEvent.fileOrSymlink (childRelPath WalkBranch.root "" "x.txt") ::
        WalkEvent.lstat false (childRelPath WalkBranch.root "" "x.txt")
          (lstatPath exampleTree (WalkBranch.root.relPathElems ++ ["x.txt"])).isNone ::
        (processEntries allCbs exampleTree WalkBranch.root "" []).1
    ∧ processEntries allCbs exampleTree WalkBranch.root ""
        (FTree.dir ".snapshot" [FTree.file "inner.txt"] :: []) =
      processEntries allCbs exampleTree WalkBranch.root "" []
    ∧ processEntries lstatOnlyCbs exampleTree WalkBranch.root "" [FTree.file "x.txt"] =
      processEntries lstatOnlyCbs exampleTree WalkBranch.root "" []
    ∧ processEntries allCbs exampleTree WalkBranch.root "" [FTree.dir "dir1" [] ] =
      ((if allCbs.onDirectory then [WalkEvent.directory (childRelPath WalkBranch.root "" "dir1")] else [])
          ++ (processEntries allCbs exampleTree WalkBranch.root "" []).1,
       WalkBranch.child WalkBranch.root "dir1" ::
         (processEntries allCbs exampleTree WalkBranch.root "" []).2)
    ∧ (processBranch allCbs exampleTree (WalkBranch.child WalkBranch.root "dir1")).events.head? =
        some (WalkEvent.lstat true (WalkBranch.child WalkBranch.root "dir1").relPath false) := by
  have h := C2_amended_entry_order allCbs exampleTree WalkBranch.root "" "x.txt" []
      [FTree.file "inner.txt"] (by decide) (by decide)
  have h2 := C2_amended_entry_order allCbs exampleTree WalkBranch.root "" "dir1" [] []
      (by decide) (by decide)
  exact ⟨h.1, h.2.1, h.2.2.1 lstatOnlyCbs (by decide), h2.2.2.2.1 (by decide),
    h2.2.2.2.2 (WalkBranch.child WalkBranch.root "dir1") true (by decide)⟩

/-- C3 fails on the code: the walker's Walker struct carries no ignore
set and no ignore predicate (only the documentation advertises
SetIgnoreNames and SetIgnoreFunc), so every run over the four-file
example tree reports dir1/b.txt and dir1/dir2/c.txt unconditionally —
there is no configuration under which they are excluded. -/
theorem C3_no_configurable_ignore_eval :
    fileRelPaths (Run { root := exampleTree, callbacks := allCbs, cancelled := false } 10).events =
      ["a.txt", "dir3/d.txt", "dir1/b.txt", "dir1/dir2/c.txt"]
    ∧ "dir1/b.txt" ∈
        fileRelPaths (Run { root := exampleTree, callbacks := allCbs, cancelled := false } 10).events
    ∧ "dir1/dir2/c.txt" ∈
        fileRelPaths (Run { root := exampleTree, callbacks := allCbs, cancelled := false } 10).events
    ∧ dirRelPaths (Run { root := exampleTree, callbacks := allCbs, cancelled := false } 10).events =
      ["dir1", "dir3", "dir1/dir2"] := by
  refine ⟨by decide, by decide, by decide, by decide⟩

/-- C4 fails on the code: with only OnLstat configured, walking a root
with a single file fires OnLstat once (for the root alone) instead of
once per path, because the per-entry lstat is nested inside the
OnFileOrSymlink presence check; configuring OnFileOrSymlink as well
restores one OnLstat per path and the total of 8 on the four-file
example tree. -/
theorem C4_lstat_gating_eval :
    lstatRelPaths (Run { root := oneFileTree, callbacks := lstatOnlyCbs, cancelled := false } 10).events
      = [""]
    ∧ lstatRelPaths (Run { root := oneFileTree, callbacks := lstatAndFileCbs, cancelled := false } 10).events
      = ["", "a.txt"]
    ∧ (lstatRelPaths (Run { root := exampleTree, callbacks := allCbs, cancelled := false } 20).events).length
      = 8
    ∧ lstatRelPaths (Run { root := exampleTree, callbacks := allCbs, cancelled := false } 20).events
      = ["", "a.txt", "dir3", "dir3/d.txt", "dir1", "dir1/b.txt", "dir1/dir2", "dir1/dir2/c.txt"] := by
  refine ⟨by decide, by decide, by decide, by decide⟩

end Cwalk
